import Mathlib

/-!
Shallow embedding of `gilded_rose.py` (Gilded Rose refactored with the
Strategy pattern).  The Python file is instrumented by a mutation-testing
tool; the behaviour of the program is given by the `…__mutmut_orig`
bodies, which are the functions embedded here.  Items are plain records
over `Int`; each updater class becomes a constructor of `Strategy`
together with pure `update_quality` / `update_sell_in` functions; the
`ItemUpdaterFactory` dictionary becomes an association list, and
`GildedRose.update_quality` maps the per-item update over the item list.
-/

/-- `Item`: name, sell_in and quality, as in class `Item`. -/
structure Item where
  name : String
  sell_in : Int
  quality : Int
deriving Repr, DecidableEq

/-- `QualityUpdater.MINIMUM_QUALITY`. -/
def MINIMUM_QUALITY : Int := 0

/-- `QualityUpdater.MAXIMUM_QUALITY`. -/
def MAXIMUM_QUALITY : Int := 50

/-- `QualityUpdater.clamp_quality`: `max(MINIMUM_QUALITY, min(quality, MAXIMUM_QUALITY))`. -/
def clamp_quality (quality : Int) : Int :=
  max MINIMUM_QUALITY (min quality MAXIMUM_QUALITY)

/-- `QualityUpdater.is_expired`: `item.sell_in < 0`. -/
def is_expired (item : Item) : Bool :=
  item.sell_in < 0

/-- `QualityUpdater.decrease_sell_in`: `item.sell_in -= 1`. -/
def decrease_sell_in (item : Item) : Item :=
  { item with sell_in := item.sell_in - 1 }

namespace NormalItemUpdater

/-- `NormalItemUpdater._degrade_quality_before_expiration`. -/
def degrade_quality_before_expiration (item : Item) : Item :=
  { item with quality := clamp_quality (item.quality - 1) }

/-- `NormalItemUpdater._degrade_quality_additional_after_expiration`. -/
def degrade_quality_additional_after_expiration (item : Item) : Item :=
  { item with quality := clamp_quality (item.quality - 1) }

/-- `NormalItemUpdater.update_quality`. -/
def update_quality (item : Item) : Item :=
  degrade_quality_before_expiration item

/-- `NormalItemUpdater.update_sell_in`: decrement, then extra degradation if expired. -/
def update_sell_in (item : Item) : Item :=
  let item := decrease_sell_in item
  if is_expired item then degrade_quality_additional_after_expiration item else item

end NormalItemUpdater

namespace AgedBrieUpdater

/-- `AgedBrieUpdater._improve_quality_before_expiration`. -/
def improve_quality_before_expiration (item : Item) : Item :=
  { item with quality := clamp_quality (item.quality + 1) }

/-- `AgedBrieUpdater._improve_quality_additional_after_expiration`. -/
def improve_quality_additional_after_expiration (item : Item) : Item :=
  { item with quality := clamp_quality (item.quality + 1) }

/-- `AgedBrieUpdater.update_quality`. -/
def update_quality (item : Item) : Item :=
  improve_quality_before_expiration item

/-- `AgedBrieUpdater.update_sell_in`: decrement, then extra improvement if expired. -/
def update_sell_in (item : Item) : Item :=
  let item := decrease_sell_in item
  if is_expired item then improve_quality_additional_after_expiration item else item

end AgedBrieUpdater

namespace BackstagePassUpdater

/-- `BackstagePassUpdater.DAYS_CRITICAL_ZONE`. -/
def DAYS_CRITICAL_ZONE : Int := 6

/-- `BackstagePassUpdater.DAYS_URGENT_ZONE`. -/
def DAYS_URGENT_ZONE : Int := 11

/-- `BackstagePassUpdater._calculate_quality_increase`: tiered bonus from days until concert. -/
def calculate_quality_increase (days_until_concert : Int) : Int :=
  if days_until_concert < DAYS_CRITICAL_ZONE then 3
  else if days_until_concert < DAYS_URGENT_ZONE then 2
  else 1

/-- `BackstagePassUpdater._increase_quality_by_urgency`. -/
def increase_quality_by_urgency (item : Item) : Item :=
  let quality_increase := calculate_quality_increase item.sell_in
  { item with quality := clamp_quality (item.quality + quality_increase) }

/-- `BackstagePassUpdater._expire_backstage_pass`: quality becomes `MINIMUM_QUALITY`. -/
def expire_backstage_pass (item : Item) : Item :=
  { item with quality := MINIMUM_QUALITY }

/-- `BackstagePassUpdater.update_quality`. -/
def update_quality (item : Item) : Item :=
  increase_quality_by_urgency item

/-- `BackstagePassUpdater.update_sell_in`: decrement, then hard reset to 0 if expired. -/
def update_sell_in (item : Item) : Item :=
  let item := decrease_sell_in item
  if is_expired item then expire_backstage_pass item else item

end BackstagePassUpdater

namespace SulfurasUpdater

/-- `SulfurasUpdater.update_quality`: no-op. -/
def update_quality (item : Item) : Item := item

/-- `SulfurasUpdater.update_sell_in`: no-op. -/
def update_sell_in (item : Item) : Item := item

end SulfurasUpdater

/-- The four concrete `QualityUpdater` subclasses, as a closed tag type. -/
inductive Strategy where
  | normalItem
  | agedBrie
  | backstagePass
  | sulfuras
deriving Repr, DecidableEq

/-- Dynamic dispatch of `update_quality` over the updater classes. -/
def Strategy.update_quality : Strategy → Item → Item
  | .normalItem => NormalItemUpdater.update_quality
  | .agedBrie => AgedBrieUpdater.update_quality
  | .backstagePass => BackstagePassUpdater.update_quality
  | .sulfuras => SulfurasUpdater.update_quality

/-- Dynamic dispatch of `update_sell_in` over the updater classes. -/
def Strategy.update_sell_in : Strategy → Item → Item
  | .normalItem => NormalItemUpdater.update_sell_in
  | .agedBrie => AgedBrieUpdater.update_sell_in
  | .backstagePass => BackstagePassUpdater.update_sell_in
  | .sulfuras => SulfurasUpdater.update_sell_in

/-- `ItemUpdaterFactory`: its `_strategies` dict, as an association list
(`register_strategy` prepends, so lookup sees the latest binding, matching
dict assignment). -/
structure ItemUpdaterFactory where
  strategies : List (String × Strategy)
deriving Repr, DecidableEq

/-- `ItemUpdaterFactory.__init__`: the three built-in bindings. -/
def ItemUpdaterFactory.init : ItemUpdaterFactory :=
  ⟨[("Aged Brie", Strategy.agedBrie),
    ("Backstage passes to a TAFKAL80ETC concert", Strategy.backstagePass),
    ("Sulfuras, Hand of Ragnaros", Strategy.sulfuras)]⟩

/-- `ItemUpdaterFactory.get_updater`: `self._strategies.get(item_name, NormalItemUpdater())`. -/
def ItemUpdaterFactory.get_updater (f : ItemUpdaterFactory) (item_name : String) : Strategy :=
  (f.strategies.lookup item_name).getD Strategy.normalItem

/-- `ItemUpdaterFactory.register_strategy`: `self._strategies[item_name] = updater`. -/
def ItemUpdaterFactory.register_strategy (f : ItemUpdaterFactory) (item_name : String)
    (updater : Strategy) : ItemUpdaterFactory :=
  ⟨(item_name, updater) :: f.strategies⟩

/-- `GildedRose`: the item list plus its `_updater_factory`. -/
structure GildedRose where
  items : List Item
  updater_factory : ItemUpdaterFactory

/-- `GildedRose.__init__(items)`: stores the items and a fresh factory. -/
def GildedRose.init (items : List Item) : GildedRose :=
  ⟨items, ItemUpdaterFactory.init⟩

/-- `GildedRose._update_single_item`: resolve the strategy by name, update
quality first, then sell_in. -/
def GildedRose.update_single_item (g : GildedRose) (item : Item) : Item :=
  let updater := g.updater_factory.get_updater item.name
  let item := updater.update_quality item
  updater.update_sell_in item

/-- `GildedRose.update_quality`: update every item in collection order. -/
def GildedRose.update_quality (g : GildedRose) : GildedRose :=
  { g with items := g.items.map g.update_single_item }

/-- One per-item update by a fixed strategy: `update_quality` then `update_sell_in`,
the order used by `GildedRose._update_single_item`. -/
def Strategy.tick (s : Strategy) (item : Item) : Item :=
  s.update_sell_in (s.update_quality item)

/-- One `tick()` as seen by a single item (the factory always holds the
built-in bindings during `GildedRose.update_quality`). -/
def tickItem (item : Item) : Item :=
  let updater := ItemUpdaterFactory.init.get_updater item.name
  updater.update_sell_in (updater.update_quality item)

/-- `n` successive `tick()` calls as seen by a single item. -/
def tickN : Nat → Item → Item
  | 0, item => item
  | n + 1, item => tickN n (tickItem item)

/-! ### Helper lemmas -/

lemma clamp_quality_range (q : Int) : 0 ≤ clamp_quality q ∧ clamp_quality q ≤ 50 := by
  unfold clamp_quality MINIMUM_QUALITY MAXIMUM_QUALITY
  omega

lemma tickItem_eq (item : Item) :
    tickItem item = (ItemUpdaterFactory.init.get_updater item.name).tick item := rfl

lemma tick_normal_eq (item : Item) :
    Strategy.normalItem.tick item =
      ⟨item.name, item.sell_in - 1,
        if item.sell_in - 1 < 0 then clamp_quality (clamp_quality (item.quality - 1) - 1)
        else clamp_quality (item.quality - 1)⟩ := by
  simp only [Strategy.tick, Strategy.update_quality, Strategy.update_sell_in,
    NormalItemUpdater.update_quality, NormalItemUpdater.update_sell_in,
    NormalItemUpdater.degrade_quality_before_expiration,
    NormalItemUpdater.degrade_quality_additional_after_expiration,
    decrease_sell_in, is_expired, decide_eq_true_eq]
  split <;> rfl

lemma tick_brie_eq (item : Item) :
    Strategy.agedBrie.tick item =
      ⟨item.name, item.sell_in - 1,
        if item.sell_in - 1 < 0 then clamp_quality (clamp_quality (item.quality + 1) + 1)
        else clamp_quality (item.quality + 1)⟩ := by
  simp only [Strategy.tick, Strategy.update_quality, Strategy.update_sell_in,
    AgedBrieUpdater.update_quality, AgedBrieUpdater.update_sell_in,
    AgedBrieUpdater.improve_quality_before_expiration,
    AgedBrieUpdater.improve_quality_additional_after_expiration,
    decrease_sell_in, is_expired, decide_eq_true_eq]
  split <;> rfl

lemma tick_backstage_eq (item : Item) :
    Strategy.backstagePass.tick item =
      ⟨item.name, item.sell_in - 1,
        if item.sell_in - 1 < 0 then 0
        else clamp_quality (item.quality + BackstagePassUpdater.calculate_quality_increase item.sell_in)⟩ := by
  simp only [Strategy.tick, Strategy.update_quality, Strategy.update_sell_in,
    BackstagePassUpdater.update_quality, BackstagePassUpdater.update_sell_in,
    BackstagePassUpdater.increase_quality_by_urgency,
    BackstagePassUpdater.expire_backstage_pass, MINIMUM_QUALITY,
    decrease_sell_in, is_expired, decide_eq_true_eq]
  split <;> rfl

lemma tick_sulfuras_eq (item : Item) : Strategy.sulfuras.tick item = item := rfl

lemma tick_name (s : Strategy) (item : Item) : (s.tick item).name = item.name := by
  cases s
  · rw [tick_normal_eq]
  · rw [tick_brie_eq]
  · rw [tick_backstage_eq]
  · rfl

lemma tick_sell_in (s : Strategy) (hs : s ≠ Strategy.sulfuras) (item : Item) :
    (s.tick item).sell_in = item.sell_in - 1 := by
  cases s
  · rw [tick_normal_eq]
  · rw [tick_brie_eq]
  · rw [tick_backstage_eq]
  · exact absurd rfl hs

lemma tick_quality_range (s : Strategy) (hs : s ≠ Strategy.sulfuras) (item : Item) :
    0 ≤ (s.tick item).quality ∧ (s.tick item).quality ≤ 50 := by
  cases s
  · rw [tick_normal_eq]
    dsimp only
    split
    · exact clamp_quality_range _
    · exact clamp_quality_range _
  · rw [tick_brie_eq]
    dsimp only
    split
    · exact clamp_quality_range _
    · exact clamp_quality_range _
  · rw [tick_backstage_eq]
    dsimp only
    split
    · exact ⟨le_refl 0, by norm_num⟩
    · exact clamp_quality_range _
  · exact absurd rfl hs

lemma tickItem_name (item : Item) : (tickItem item).name = item.name := by
  rw [tickItem_eq]
  exact tick_name _ item

lemma tickItem_updater (item : Item) :
    ItemUpdaterFactory.init.get_updater (tickItem item).name =
      ItemUpdaterFactory.init.get_updater item.name := by
  rw [tickItem_name]

lemma tickN_quality_range (n : Nat) (item : Item)
    (hs : ItemUpdaterFactory.init.get_updater item.name ≠ Strategy.sulfuras)
    (h0 : 0 ≤ item.quality) (h50 : item.quality ≤ 50) :
    0 ≤ (tickN n item).quality ∧ (tickN n item).quality ≤ 50 := by
  induction n generalizing item with
  | zero => exact ⟨h0, h50⟩
  | succ n ih =>
    have hs' : ItemUpdaterFactory.init.get_updater (tickItem item).name ≠ Strategy.sulfuras := by
      rw [tickItem_updater]; exact hs
    have hq := tick_quality_range _ hs item
    rw [← tickItem_eq] at hq
    exact ih (tickItem item) hs' hq.1 hq.2

lemma tickN_sell_in (n : Nat) (item : Item)
    (hs : ItemUpdaterFactory.init.get_updater item.name ≠ Strategy.sulfuras) :
    (tickN n item).sell_in = item.sell_in - n := by
  induction n generalizing item with
  | zero => simp [tickN]
  | succ n ih =>
    have hs' : ItemUpdaterFactory.init.get_updater (tickItem item).name ≠ Strategy.sulfuras := by
      rw [tickItem_updater]; exact hs
    have hstep : (tickItem item).sell_in = item.sell_in - 1 := by
      rw [tickItem_eq]; exact tick_sell_in _ hs item
    have := ih (tickItem item) hs'
    rw [tickN] at *
    rw [this, hstep]
    push_cast
    ring

lemma tickN_name (n : Nat) (item : Item) : (tickN n item).name = item.name := by
  induction n generalizing item with
  | zero => rfl
  | succ n ih => rw [tickN, ih, tickItem_name]

lemma get_updater_unmatched (item_name : String)
    (h1 : item_name ≠ "Aged Brie")
    (h2 : item_name ≠ "Backstage passes to a TAFKAL80ETC concert")
    (h3 : item_name ≠ "Sulfuras, Hand of Ragnaros") :
    ItemUpdaterFactory.init.get_updater item_name = Strategy.normalItem := by
  have e1 : (item_name == "Aged Brie") = false := beq_eq_false_iff_ne.mpr h1
  have e2 : (item_name == "Backstage passes to a TAFKAL80ETC concert") = false :=
    beq_eq_false_iff_ne.mpr h2
  have e3 : (item_name == "Sulfuras, Hand of Ragnaros") = false := beq_eq_false_iff_ne.mpr h3
  simp [ItemUpdaterFactory.get_updater, ItemUpdaterFactory.init, List.lookup, e1, e2, e3]

lemma get_updater_register (f : ItemUpdaterFactory) (item_name : String) (updater : Strategy) :
    (f.register_strategy item_name updater).get_updater item_name = updater := by
  simp [ItemUpdaterFactory.get_updater, ItemUpdaterFactory.register_strategy, List.lookup]

lemma update_single_item_init (items : List Item) (item : Item) :
    (GildedRose.init items).update_single_item item = tickItem item := rfl

/-! ### Claim theorems -/

/-- C1: every item handled by a non-Legendary built-in strategy whose quality
initially satisfies `0 ≤ quality ≤ 50` still satisfies `0 ≤ quality ≤ 50`
after any number of `tick()` calls. -/
theorem c1_nonlegendary_quality_invariant (item : Item)
    (hs : ItemUpdaterFactory.init.get_updater item.name ≠ Strategy.sulfuras)
    (h0 : 0 ≤ item.quality) (h50 : item.quality ≤ 50) (n : Nat) :
    0 ≤ (tickN n item).quality ∧ (tickN n item).quality ≤ 50 :=
  tickN_quality_range n item hs h0 h50

/-- Witness for C1 at `Item("Normal Item", 3, 10)` after 5 ticks. -/
theorem c1_nonlegendary_quality_invariant_witness :
    (ItemUpdaterFactory.init.get_updater "Normal Item" ≠ Strategy.sulfuras ∧
      (0 : Int) ≤ 10 ∧ (10 : Int) ≤ 50) ∧
    0 ≤ (tickN 5 ⟨"Normal Item", 3, 10⟩).quality ∧
      (tickN 5 ⟨"Normal Item", 3, 10⟩).quality ≤ 50 :=
  ⟨⟨by decide, by decide, by decide⟩,
    c1_nonlegendary_quality_invariant ⟨"Normal Item", 3, 10⟩ (by decide) (by decide) (by decide) 5⟩

/-- C2: a Backstage-style item whose post-decrement `sell_in` is negative has its
quality hard-reset to exactly 0 by the tick, and its `sell_in` decremented by 1. -/
theorem c2_backstage_hard_reset (item : Item)
    (hname : item.name = "Backstage passes to a TAFKAL80ETC concert")
    (hexp : item.sell_in - 1 < 0) :
    (tickItem item).quality = 0 ∧ (tickItem item).sell_in = item.sell_in - 1 := by
  have hst : ItemUpdaterFactory.init.get_updater item.name = Strategy.backstagePass := by
    rw [hname]; decide
  rw [tickItem_eq, hst, tick_backstage_eq]
  dsimp only
  rw [if_pos hexp]
  exact ⟨rfl, rfl⟩

/-- Witness for C2 at `Item("Backstage passes to a TAFKAL80ETC concert", 0, 25)`:
after one tick, quality is 0 and `sell_in` is -1. -/
theorem c2_backstage_hard_reset_witness :
    ((0 : Int) - 1 < 0) ∧
    (tickItem ⟨"Backstage passes to a TAFKAL80ETC concert", 0, 25⟩).quality = 0 ∧
    (tickItem ⟨"Backstage passes to a TAFKAL80ETC concert", 0, 25⟩).sell_in = -1 :=
  ⟨by decide,
    c2_backstage_hard_reset ⟨"Backstage passes to a TAFKAL80ETC concert", 0, 25⟩ rfl (by decide)⟩

/-- C3: the quality step of a tick on a Backstage-style item adds an urgency bonus
computed from the pre-decrement `sell_in` (3 if it is below 6, 2 if in [6, 11),
1 otherwise), clamping the result into [0, 50]; `Item("Backstage passes to a
TAFKAL80ETC concert", 10, 25)` becomes quality 27 and `sell_in` 9 after one tick. -/
theorem c3_backstage_urgency_bonus (item : Item)
    (hname : item.name = "Backstage passes to a TAFKAL80ETC concert") :
    ((ItemUpdaterFactory.init.get_updater item.name).update_quality item).quality =
      max 0 (min (item.quality +
        (if item.sell_in < 6 then 3 else if item.sell_in < 11 then 2 else 1)) 50) ∧
    tickItem ⟨item.name, 10, 25⟩ = ⟨item.name, 9, 27⟩ := by
  have hst : ItemUpdaterFactory.init.get_updater item.name = Strategy.backstagePass := by
    rw [hname]; decide
  constructor
  · rw [hst]
    rfl
  · rw [hname]
    decide

/-- Witness for C3 at `Item("Backstage passes to a TAFKAL80ETC concert", 10, 25)`:
the bonus is 2 (pre-decrement `sell_in` lies in [6, 11)), so one tick yields
quality 27 and `sell_in` 9. -/
theorem c3_backstage_urgency_bonus_witness :
    ((ItemUpdaterFactory.init.get_updater "Backstage passes to a TAFKAL80ETC concert").update_quality
        ⟨"Backstage passes to a TAFKAL80ETC concert", 10, 25⟩).quality =
      max 0 (min (25 + ((2 : Int))) 50) ∧
    tickItem ⟨"Backstage passes to a TAFKAL80ETC concert", 10, 25⟩ =
      ⟨"Backstage passes to a TAFKAL80ETC concert", 9, 27⟩ :=
  c3_backstage_urgency_bonus ⟨"Backstage passes to a TAFKAL80ETC concert", 10, 25⟩ rfl

/-- C4: a `Sulfuras, Hand of Ragnaros` item keeps its quality and `sell_in`
completely unchanged by any number of `tick()` calls, whatever the initial
values. -/
theorem c4_sulfuras_unchanged (item : Item)
    (hname : item.name = "Sulfuras, Hand of Ragnaros") (n : Nat) :
    tickN n item = item := by
  have hst : ItemUpdaterFactory.init.get_updater item.name = Strategy.sulfuras := by
    rw [hname]; decide
  have hstep : tickItem item = item := by
    rw [tickItem_eq, hst, tick_sulfuras_eq]
  induction n with
  | zero => rfl
  | succ n ih => rw [tickN, hstep, ih]

/-- Witness for C4 at `Item("Sulfuras, Hand of Ragnaros", 5, 80)` (an
out-of-range quality) after 7 ticks. -/
theorem c4_sulfuras_unchanged_witness :
    (Item.mk "Sulfuras, Hand of Ragnaros" 5 80).name = "Sulfuras, Hand of Ragnaros" ∧
    tickN 7 ⟨"Sulfuras, Hand of Ragnaros", 5, 80⟩ = ⟨"Sulfuras, Hand of Ragnaros", 5, 80⟩ :=
  ⟨rfl, c4_sulfuras_unchanged ⟨"Sulfuras, Hand of Ragnaros", 5, 80⟩ rfl 7⟩

/-- C5: a Generic item (name not in the registry) is updated by one tick to
quality `clamp(q - 1)`, `sell_in` decremented by 1, and a second clamped
decrement of quality when the post-decrement `sell_in` is negative. -/
theorem c5_generic_tick (item : Item)
    (hs : ItemUpdaterFactory.init.get_updater item.name = Strategy.normalItem) :
    tickItem item =
      ⟨item.name, item.sell_in - 1,
        if item.sell_in - 1 < 0 then clamp_quality (clamp_quality (item.quality - 1) - 1)
        else clamp_quality (item.quality - 1)⟩ := by
  rw [tickItem_eq, hs, tick_normal_eq]

/-- Witness for C5: `Item("Normal Item", 10, 20)` becomes (9, 19) and
`Item("Normal Item", -1, 10)` becomes (-2, 8) after one tick. -/
theorem c5_generic_tick_witness :
    (ItemUpdaterFactory.init.get_updater "Normal Item" = Strategy.normalItem ∧
      tickItem ⟨"Normal Item", 10, 20⟩ = ⟨"Normal Item", 9, 19⟩) ∧
    tickItem ⟨"Normal Item", -1, 10⟩ = ⟨"Normal Item", -2, 8⟩ := by
  refine ⟨⟨by decide, ?_⟩, ?_⟩
  · rw [c5_generic_tick ⟨"Normal Item", 10, 20⟩ (by decide)]
    decide
  · rw [c5_generic_tick ⟨"Normal Item", -1, 10⟩ (by decide)]
    decide

/-- C6: an `Aged Brie` item is updated by one tick to quality `clamp(q + 1)`,
`sell_in` decremented by 1, and a second clamped increment when the
post-decrement `sell_in` is negative; the quality never exceeds 50. -/
theorem c6_brie_tick (item : Item) (hname : item.name = "Aged Brie") :
    tickItem item =
      ⟨item.name, item.sell_in - 1,
        if item.sell_in - 1 < 0 then clamp_quality (clamp_quality (item.quality + 1) + 1)
        else clamp_quality (item.quality + 1)⟩ ∧
    (tickItem item).quality ≤ 50 := by
  have hst : ItemUpdaterFactory.init.get_updater item.name = Strategy.agedBrie := by
    rw [hname]; decide
  constructor
  · rw [tickItem_eq, hst, tick_brie_eq]
  · have hq := tick_quality_range Strategy.agedBrie (by decide) item
    rw [tickItem_eq, hst]
    exact hq.2

/-- Witness for C6 at `Item("Aged Brie", 10, 50)`: quality stays at the cap 50,
`sell_in` becomes 9. -/
theorem c6_brie_tick_witness :
    (Item.mk "Aged Brie" 10 50).name = "Aged Brie" ∧
    tickItem ⟨"Aged Brie", 10, 50⟩ = ⟨"Aged Brie", 9, 50⟩ ∧
    (tickItem ⟨"Aged Brie", 10, 50⟩).quality ≤ 50 := by
  have h := c6_brie_tick ⟨"Aged Brie", 10, 50⟩ rfl
  refine ⟨rfl, ?_, h.2⟩
  rw [h.1]
  decide

/-- C7: every item not handled by the Legendary strategy has its `sell_in`
decremented by exactly 1 per tick, for every initial value, with no lower
bound: after `n` ticks, `sell_in` equals the initial value minus `n`. -/
theorem c7_sell_in_decrement (item : Item)
    (hs : ItemUpdaterFactory.init.get_updater item.name ≠ Strategy.sulfuras) (n : Nat) :
    (tickN n item).sell_in = item.sell_in - n :=
  tickN_sell_in n item hs

/-- Witness for C7 at `Item("Normal Item", 2, 10)` after 5 ticks: `sell_in`
becomes -3, below any zero bound. -/
theorem c7_sell_in_decrement_witness :
    ItemUpdaterFactory.init.get_updater "Normal Item" ≠ Strategy.sulfuras ∧
    (tickN 5 ⟨"Normal Item", 2, 10⟩).sell_in = 2 - (5 : Nat) :=
  ⟨by decide, c7_sell_in_decrement ⟨"Normal Item", 2, 10⟩ (by decide) 5⟩

/-- C8: the strategy selector resolves the three registry names exactly and
case-sensitively, resolves every other name to the Generic strategy, and
`register_strategy` adds or replaces a binding so that the name subsequently
resolves to the registered strategy. -/
theorem c8_resolver_registry :
    ItemUpdaterFactory.init.get_updater "Aged Brie" = Strategy.agedBrie ∧
    ItemUpdaterFactory.init.get_updater "Backstage passes to a TAFKAL80ETC concert" =
      Strategy.backstagePass ∧
    ItemUpdaterFactory.init.get_updater "Sulfuras, Hand of Ragnaros" = Strategy.sulfuras ∧
    (∀ item_name : String, item_name ≠ "Aged Brie" →
      item_name ≠ "Backstage passes to a TAFKAL80ETC concert" →
      item_name ≠ "Sulfuras, Hand of Ragnaros" →
      ItemUpdaterFactory.init.get_updater item_name = Strategy.normalItem) ∧
    ∀ (f : ItemUpdaterFactory) (item_name : String) (updater : Strategy),
      (f.register_strategy item_name updater).get_updater item_name = updater :=
  ⟨by decide, by decide, by decide, get_updater_unmatched, get_updater_register⟩

/-- Witness for C8: the case variant `"aged brie"` resolves to the Generic
strategy, and a freshly registered name resolves to its registered strategy. -/
theorem c8_resolver_registry_witness :
    ItemUpdaterFactory.init.get_updater "aged brie" = Strategy.normalItem ∧
    (ItemUpdaterFactory.init.register_strategy "Conjured Mana Cake"
        Strategy.agedBrie).get_updater "Conjured Mana Cake" = Strategy.agedBrie :=
  ⟨c8_resolver_registry.2.2.2.1 "aged brie" (by decide) (by decide) (by decide),
    c8_resolver_registry.2.2.2.2 ItemUpdaterFactory.init "Conjured Mana Cake" Strategy.agedBrie⟩

/-- C9: `GildedRose.update_quality` visits the items in collection order and
updates each item independently by its own fields only: the `i`-th item of the
result is exactly `tickItem` of the `i`-th input item (so nothing is added,
removed or reordered), each item keeps its name, and the empty collection is
left unchanged. -/
theorem c9_update_quality_pointwise :
    ((GildedRose.init []).update_quality).items = [] ∧
    (∀ (items : List Item) (i : Nat),
      ((GildedRose.init items).update_quality).items[i]? = items[i]?.map tickItem) ∧
    ∀ (items : List Item) (i : Nat),
      (((GildedRose.init items).update_quality).items[i]?).map Item.name =
        (items[i]?).map Item.name := by
  have key : ∀ (items : List Item) (i : Nat),
      ((GildedRose.init items).update_quality).items[i]? = items[i]?.map tickItem := by
    intro items i
    have hfun : (GildedRose.init items).update_single_item = tickItem := by
      funext item
      exact update_single_item_init items item
    show (items.map ((GildedRose.init items).update_single_item))[i]? = items[i]?.map tickItem
    rw [hfun]
    exact List.getElem?_map tickItem items i
  refine ⟨rfl, key, ?_⟩
  intro items i
  rw [key items i]
  cases items[i]? with
  | none => rfl
  | some item => simp [tickItem_name]

/-- C10: even from an out-of-range starting quality, one tick of a non-Legendary
built-in strategy lands the quality in [0, 50], and it stays there for all
later ticks. -/
theorem c10_first_tick_normalizes (item : Item)
    (hs : ItemUpdaterFactory.init.get_updater item.name ≠ Strategy.sulfuras)
    (n : Nat) (hn : 1 ≤ n) :
    0 ≤ (tickN n item).quality ∧ (tickN n item).quality ≤ 50 := by
  obtain ⟨m, rfl⟩ : ∃ m, n = m + 1 := ⟨n - 1, by omega⟩
  have hq := tick_quality_range _ hs item
  rw [← tickItem_eq] at hq
  have hs' : ItemUpdaterFactory.init.get_updater (tickItem item).name ≠ Strategy.sulfuras := by
    rw [tickItem_updater]; exact hs
  show 0 ≤ (tickN m (tickItem item)).quality ∧ (tickN m (tickItem item)).quality ≤ 50
  exact tickN_quality_range m (tickItem item) hs' hq.1 hq.2

/-- Witness for C10 at `Item("Normal Item", 5, 99)` (quality far above the cap):
after one tick the quality already lies in [0, 50]. -/
theorem c10_first_tick_normalizes_witness :
    (ItemUpdaterFactory.init.get_updater "Normal Item" ≠ Strategy.sulfuras ∧ 1 ≤ 1) ∧
    0 ≤ (tickN 1 ⟨"Normal Item", 5, 99⟩).quality ∧
      (tickN 1 ⟨"Normal Item", 5, 99⟩).quality ≤ 50 :=
  ⟨⟨by decide, le_refl 1⟩,
    c10_first_tick_normalizes ⟨"Normal Item", 5, 99⟩ (by decide) 1 (le_refl 1)⟩
